import Mathlib

/-!
Verification of the qrunner/arch discovery-and-reconciliation pipeline.

Shallow embedding of the Go sources:
- `internal/model/asset.go`, `change_event.go`, `collector_config.go` (data model)
- `internal/store/postgres/postgres.go` (canonical-store lookup and update primitives)
- `internal/reconciler/reconciler.go` (identity cascade, change detection, event emission)
- `internal/store/neo4j` graph traversal depth handling and the API handlers
- `internal/collector` registry, `internal/scheduler`, `internal/notifier`

Time is modelled as `Nat`, UUIDs as `Nat`, `json.RawMessage` as `String`
(the reconciler compares attribute blobs by string equality of the raw
bytes, so a `String` carries exactly the compared information).  Store
rows live in a `List`; the database is assumed available (transport
failures are out of scope of the claims below, which concern the
decision logic).
-/

/-- Lifecycle status of an asset, from `model.AssetStatus`. -/
inductive AssetStatus
  | active
  | stale
  | removed
deriving DecidableEq, Repr

/-- Canonical asset record, from `model.Asset`.  `fqdn` is a nullable
column (`*string` in Go), hence `Option String`; `attributes` is the raw
JSON blob. -/
structure Asset where
  id : Nat
  externalID : String
  source : String
  assetType : String
  name : String
  fqdn : Option String
  ipAddresses : List String
  attributes : String
  firstSeen : Nat
  lastSeen : Nat
  status : AssetStatus
  createdAt : Nat
  updatedAt : Nat
deriving DecidableEq, Repr

/-- Change action strings, from `model.ChangeAction`. -/
inductive ChangeAction
  | created
  | updated
  | removed
  | relChanged
deriving DecidableEq, Repr

/-- The dotted subject suffix for each action (`string(action)` in Go). -/
def ChangeAction.toString : ChangeAction → String
  | .created => "asset.created"
  | .updated => "asset.updated"
  | .removed => "asset.removed"
  | .relChanged => "relationship.changed"

/-- One `{old, new}` entry of a diff: field name, old value, new value. -/
abbrev DiffEntry := String × String × String

/-- Change event, from `model.ChangeEvent`.  `diff = none` models the
JSON `null` produced by `json.Marshal` of a nil map. -/
structure ChangeEvent where
  assetID : Nat
  action : ChangeAction
  source : String
  diff : Option (List DiffEntry)
  timestamp : Nat
deriving DecidableEq, Repr

/-- `postgres.Store.GetByExternalID`: the row with matching
`(source, external_id)`; the unique index guarantees at most one. -/
def getByExternalID (store : List Asset) (source externalID : String) : Option Asset :=
  store.find? (fun a => a.source = source ∧ a.externalID = externalID)

/-- `postgres.Store.FindByIP`: all rows whose `ip_addresses` array
contains the given IP (`$1 = ANY(ip_addresses)`). -/
def findByIP (store : List Asset) (ip : String) : List Asset :=
  store.filter (fun a => ip ∈ a.ipAddresses)

/-- `postgres.Store.FindByFQDN`: all rows whose `fqdn` equals the given
value (a NULL fqdn never matches an SQL equality). -/
def findByFQDN (store : List Asset) (fqdn : String) : List Asset :=
  store.filter (fun a => a.fqdn = some fqdn)

/-- The IP loop of `reconcileAsset` (step 2): walk `ip_addresses` in
order; a lookup is accepted only when it returns exactly one candidate
(`len(matches) == 1`), otherwise the loop continues with the next IP. -/
def findSingleIP (store : List Asset) : List String → Option Asset
  | [] => none
  | ip :: rest =>
      let matchList := findByIP store ip
      if matchList.length = 1 then matchList.head? else findSingleIP store rest

/-- Identity resolution of `reconcileAsset` (steps 1-3 of the cascade),
translated clause by clause from `internal/reconciler/reconciler.go`
lines 71-101: exact `(source, external_id)` lookup, then the IP loop
(guarded by `len(incoming.IPAddresses) > 0`), then a single-candidate
FQDN lookup guarded by `incoming.FQDN != nil && *incoming.FQDN != ""`. -/
def resolveIdentity (store : List Asset) (incoming : Asset) : Option Asset :=
  match getByExternalID store incoming.source incoming.externalID with
  | some a => some a
  | none =>
      match (if incoming.ipAddresses.isEmpty then none
             else findSingleIP store incoming.ipAddresses) with
      | some a => some a
      | none =>
          match incoming.fqdn with
          | some f =>
              if f ≠ "" then
                let matchList := findByFQDN store f
                if matchList.length = 1 then matchList.head? else none
              else none
          | none => none

/-- `detectChanges` from `reconciler.go` lines 189-217: compare `name`
by string equality, `fqdn` with nil read as the empty string, and
`attributes` as the string form of the raw JSON; each difference yields
one `{old, new}` entry.  The Go code fills a map keyed by field name;
the three insertions are modelled as an ordered list. -/
def detectChanges (existing incoming : Asset) : List DiffEntry :=
  (if existing.name ≠ incoming.name
   then [("name", existing.name, incoming.name)] else [])
  ++
  (let existingFQDN := existing.fqdn.getD ""
   let incomingFQDN := incoming.fqdn.getD ""
   if existingFQDN ≠ incomingFQDN
   then [("fqdn", existingFQDN, incomingFQDN)] else [])
  ++
  (if existing.attributes ≠ incoming.attributes
   then [("attributes", existing.attributes, incoming.attributes)] else [])

/-- `postgres.Store.Update` (lines 155-173): sets
`asset.UpdatedAt = time.Now().UTC()` unconditionally, then writes every
column of the row identified by `id`. -/
def pgUpdate (store : List Asset) (asset : Asset) (now : Nat) : List Asset :=
  store.map (fun b => if b.id = asset.id then { asset with updatedAt := now } else b)

/-- What `publishEvent` produced: events appended to the canonical
change history (`CreateChangeEvent`) and messages published on the bus. -/
structure PublishOutcome where
  stored : List ChangeEvent
  published : List (String × ChangeEvent)
deriving DecidableEq, Repr

/-- `publishEvent` from `reconciler.go` lines 168-187: returns
immediately when the publisher is nil (before `CreateChangeEvent`);
otherwise stores the event and publishes it on subject
`"assets." + string(action)`. -/
def publishEvent (hasPublisher : Bool) (action : ChangeAction) (assetID : Nat)
    (source : String) (diff : Option (List DiffEntry)) (now : Nat) : PublishOutcome :=
  if hasPublisher then
    let e : ChangeEvent := ⟨assetID, action, source, diff, now⟩
    ⟨[e], [("assets." ++ action.toString, e)]⟩
  else ⟨[], []⟩

/-- Result of reconciling: the canonical store rows, the change events
appended to the history, and the bus messages. -/
structure ReconcileOutcome where
  store : List Asset
  stored : List ChangeEvent
  published : List (String × ChangeEvent)
deriving DecidableEq, Repr

/-- `reconcileAsset` from `reconciler.go` lines 71-158.  The new-asset
branch stamps all four timestamps with `now` and inserts; the
existing-asset branch always bumps `last_seen`/`status`, copies the
descriptive fields and emits `asset.updated` only when the diff is
non-empty, and persists through `pgUpdate` (which itself refreshes
`updated_at`) in both sub-branches.  Graph-store upserts are
best-effort side channels and are not modelled. -/
def reconcileAsset (hasPublisher : Bool) (store : List Asset) (incoming : Asset)
    (now : Nat) : ReconcileOutcome :=
  match resolveIdentity store incoming with
  | none =>
      let fresh := { incoming with
        firstSeen := now, lastSeen := now, status := AssetStatus.active,
        createdAt := now, updatedAt := now }
      let po := publishEvent hasPublisher ChangeAction.created fresh.id fresh.source none now
      ⟨store ++ [fresh], po.stored, po.published⟩
  | some existing =>
      let diff := detectChanges existing incoming
      let bumped := { existing with lastSeen := now, status := AssetStatus.active }
      if diff.length > 0 then
        let applied := { bumped with
          name := incoming.name, fqdn := incoming.fqdn,
          ipAddresses := incoming.ipAddresses, attributes := incoming.attributes,
          updatedAt := now }
        let po := publishEvent hasPublisher ChangeAction.updated applied.id applied.source
          (some diff) now
        ⟨pgUpdate store applied now, po.stored, po.published⟩
      else
        ⟨pgUpdate store bumped now, [], []⟩

/-- `Reconciler.Reconcile` over the asset list of a `CollectResult`
(`reconciler.go` lines 43-54): reconcile each incoming asset in order,
threading the store and accumulating history entries and bus messages.
Relationship handling only touches the graph store and is omitted. -/
def reconcileBatch (hasPublisher : Bool) (store : List Asset) (assets : List Asset)
    (now : Nat) : ReconcileOutcome :=
  match assets with
  | [] => ⟨store, [], []⟩
  | a :: rest =>
      let o := reconcileAsset hasPublisher store a now
      let o' := reconcileBatch hasPublisher o.store rest now
      ⟨o'.store, o.stored ++ o'.stored, o.published ++ o'.published⟩

/-- The shipped collector worker constructs its reconciler with a nil
event publisher: `reconciler.New(pgStore, neo, nil, logger)` in
`cmd/collector`'s `main`. -/
def collectorWorkerHasPublisher : Bool := false

/-- The identity cascade in the words of the specification, for
comparison with `resolveIdentity`: an exact lookup by
`(source, external_id)`; failing that, the first IP in order whose
lookup returns exactly one candidate; failing that, if the asset has a
non-empty FQDN, an FQDN lookup accepted only on exactly one candidate;
otherwise no match (the asset is new). -/
def identityCascadeSpec (store : List Asset) (incoming : Asset) : Option Asset :=
  match getByExternalID store incoming.source incoming.externalID with
  | some a => some a
  | none =>
      match incoming.ipAddresses.findSome? (fun ip =>
          match findByIP store ip with
          | [a] => some a
          | _ => none) with
      | some a => some a
      | none =>
          if incoming.fqdn.getD "" ≠ "" then
            match findByFQDN store (incoming.fqdn.getD "") with
            | [a] => some a
            | _ => none
          else none

/-! ## Graph traversal depth (neo4j store and API handlers) -/

/-- The depth adjustment inside `neo4j.Store.traverseGraph`: a
non-positive depth becomes the default 3; any positive depth, however
large, is used as the upper bound of the variable-length pattern. -/
def traverseGraphDepth (depth : Int) : Int :=
  if depth ≤ 0 then 3 else depth

/-- Outcome of a graph API handler: an error response, or a traversal
executed at the given effective depth. -/
inductive GraphResponse
  | badRequest
  | unavailable
  | executed (depth : Int)
deriving DecidableEq, Repr

/-- `handleGetDependencyGraph`: reject an unparsable UUID (400), a
missing graph store (503); otherwise parse `depth` (an absent or
unparsable query value yields 0 from `strconv.Atoi`), replace
`depth ≤ 0` by 3, and run the traversal, whose own clamp is applied by
`traverseGraphDepth`.  No upper bound on depth is checked anywhere. -/
def handleGetDependencyGraph (validID hasNeo : Bool) (depth : Int) : GraphResponse :=
  if ¬ validID then GraphResponse.badRequest
  else if ¬ hasNeo then GraphResponse.unavailable
  else GraphResponse.executed (traverseGraphDepth (if depth ≤ 0 then 3 else depth))

/-- `handleGetImpactGraph`: identical depth handling on the incoming
direction. -/
def handleGetImpactGraph (validID hasNeo : Bool) (depth : Int) : GraphResponse :=
  if ¬ validID then GraphResponse.badRequest
  else if ¬ hasNeo then GraphResponse.unavailable
  else GraphResponse.executed (traverseGraphDepth (if depth ≤ 0 then 3 else depth))

/-! ## Asset list pagination -/

/-- `paginationParams` from the API helpers: a limit that is ≤ 0 or
> 100 becomes 50, a negative offset becomes 0.  (`strconv.Atoi` on a
missing or malformed query value yields 0, which is covered by the
`limit ≤ 0` case.) -/
def paginationParams (limit offset : Int) : Int × Int :=
  (if limit ≤ 0 ∨ limit > 100 then 50 else limit,
   if offset < 0 then 0 else offset)

/-- The limit fallback inside `postgres.Store.List` (lines 122-130):
only a non-positive limit is replaced, by 50; larger values pass
through. -/
def listLimitClamp (limit : Int) : Int :=
  if limit ≤ 0 then 50 else limit

/-- The offset fallback inside `postgres.Store.List`: a negative offset
becomes 0. -/
def listOffsetClamp (offset : Int) : Int :=
  if offset < 0 then 0 else offset

/-- The `(LIMIT, OFFSET)` values reaching SQL for an asset list query:
`handleListAssets` runs `paginationParams` and passes the result into
`postgres.Store.List`, which applies its own fallbacks. -/
def assetListQueryParams (limit offset : Int) : Int × Int :=
  let p := paginationParams limit offset
  (listLimitClamp p.1, listOffsetClamp p.2)

/-! ## Collector registry (heap model for pointer sharing) -/

/-- Runtime status of a collector, from `model.CollectorStatus`. -/
structure CollectorStatus where
  name : String
  lastRun : Nat
  lastSuccess : Nat
  lastError : String
  running : Bool
  assetCount : Nat
deriving DecidableEq, Repr

/-- A fresh status as allocated by `Registry.Register`
(`&model.CollectorStatus{Name: name}`: every other field zero). -/
def CollectorStatus.fresh (name : String) : CollectorStatus :=
  ⟨name, 0, 0, "", false, 0⟩

/-- The registry's mutable state.  Go stores `*CollectorStatus`
pointers in its map; pointers are modelled as indices into an explicit
heap so that aliasing is visible: `entries` maps a collector name to
the heap cell holding its status. -/
structure RegistryState where
  heap : List CollectorStatus
  entries : List (String × Nat)
deriving DecidableEq, Repr

/-- The empty registry from `NewRegistry`. -/
def RegistryState.empty : RegistryState := ⟨[], []⟩

/-- `Registry.Register`: allocate a fresh status cell and bind the name
to it (last registration wins). -/
def RegistryState.register (r : RegistryState) (name : String) : RegistryState :=
  ⟨r.heap ++ [CollectorStatus.fresh name],
   r.entries.filter (fun e => e.1 ≠ name) ++ [(name, r.heap.length)]⟩

/-- `Registry.List`: a freshly allocated slice holding, for each
registered collector, the same `*CollectorStatus` pointer that the live
map holds — modelled as the list of heap indices. -/
def RegistryState.list (r : RegistryState) : List Nat :=
  r.entries.map (fun e => e.2)

/-- Dereference a status pointer, as a caller of `List` would. -/
def RegistryState.readStatus (r : RegistryState) (p : Nat) : Option CollectorStatus :=
  r.heap.get? p

/-- Mutate the pointee of a status pointer, as a caller holding a
`*CollectorStatus` from `List` can do with a plain field assignment. -/
def RegistryState.writeStatus (r : RegistryState) (p : Nat) (s : CollectorStatus) :
    RegistryState :=
  ⟨r.heap.set p s, r.entries⟩

/-- The status the live registry associates with a collector name:
follow the map binding and dereference its pointer. -/
def RegistryState.statusOf (r : RegistryState) (name : String) : Option CollectorStatus :=
  match r.entries.find? (fun e => e.1 = name) with
  | some e => r.heap.get? e.2
  | none => none

/-! ## Scheduler worker -/

/-- Result of one `Collect` call of a collector adapter. -/
inductive CollectOutcome
  | ok (assets : List Asset)
  | failed (msg : String)
deriving DecidableEq, Repr

/-- The state a scheduler worker can affect: the collector's status
cell, the canonical store, the change history, and the log. -/
structure WorkerState where
  status : CollectorStatus
  store : List Asset
  history : List ChangeEvent
  logs : List String
deriving DecidableEq, Repr

/-- `scheduler.runCollector` (part of the worker loop body): on a
collect error, log and return — no field of the collector status is
written anywhere in the scheduler; on success, run the reconciler
(whose `Reconcile` always returns a nil error: per-asset failures are
logged and skipped inside it). -/
def runCollector (hasPublisher : Bool) (st : WorkerState) (collect : CollectOutcome)
    (now : Nat) : WorkerState :=
  match collect with
  | .failed msg =>
      { st with logs := st.logs ++ ["collector failed: " ++ msg] }
  | .ok assets =>
      let o := reconcileBatch hasPublisher st.store assets now
      { st with
        store := o.store,
        history := st.history ++ o.stored,
        logs := st.logs ++ ["collector completed"] }

/-- What the worker loop does after one iteration body. -/
inductive WorkerAction
  | continueLoop
  | exitLoop
deriving DecidableEq, Repr

/-- One `select` iteration of `runCollectorLoop`: a cancelled context
exits the loop; otherwise the tick runs `runCollector` and the `for`
loop continues regardless of any collect or reconcile failure. -/
def runCollectorLoopTick (hasPublisher : Bool) (st : WorkerState) (ctxDone : Bool)
    (collect : CollectOutcome) (now : Nat) : WorkerState × WorkerAction :=
  if ctxDone then (st, WorkerAction.exitLoop)
  else (runCollector hasPublisher st collect now, WorkerAction.continueLoop)

/-! ## Notifier -/

/-- Alert rule, from `notifier.AlertRule`. -/
structure AlertRule where
  id : String
  name : String
  actions : List String
  sources : List String
  channels : List String
deriving DecidableEq, Repr

/-- `Notifier.matches`: the event action must appear in the rule's
action list; a non-empty source list must contain the event source
(an empty source list filters nothing). -/
def ruleMatches (rule : AlertRule) (action source : String) : Bool :=
  if rule.actions.contains action then
    if rule.sources.length > 0 then rule.sources.contains source else true
  else false

/-- `Notifier.Evaluate`: for each rule in order, if it matches the
event, dispatch to each of its channels in order.  A dispatch is
recorded as `(rule id, channel)`. -/
def evaluateRules (rules : List AlertRule) (action source : String) :
    List (String × String) :=
  rules.flatMap (fun r =>
    if ruleMatches r action source then r.channels.map (fun ch => (r.id, ch)) else [])

/-! ## Helper lemmas -/

/-- Accepting a candidate list exactly when its length is 1 is the same
as pattern-matching a singleton. -/
theorem singleCandidate_eq (l : List Asset) :
    (if l.length = 1 then l.head? else none) =
      (match l with | [a] => some a | _ => none) := by
  match l with
  | [] => rfl
  | [a] => rfl
  | a :: b :: t => simp [List.length_cons]

/-- The reconciler's IP loop agrees with "first IP whose lookup returns
exactly one candidate". -/
theorem findSingleIP_eq_findSome? (store : List Asset) (ips : List String) :
    findSingleIP store ips =
      ips.findSome? (fun ip =>
        match findByIP store ip with | [a] => some a | _ => none) := by
  induction ips with
  | nil => rfl
  | cons ip rest ih =>
      rw [List.findSome?_cons]
      show (if (findByIP store ip).length = 1 then (findByIP store ip).head?
            else findSingleIP store rest) = _
      cases h : findByIP store ip with
      | nil => simp [h, ih]
      | cons a t =>
          cases t with
          | nil => simp [h]
          | cons b t' => simp [h, ih, List.length_cons]

/-! ## Claim theorems -/

/-- C1: for every incoming asset, identity resolution is the
three-stage cascade stopping at the first match: exact lookup by
`(source, external_id)`; then for each IP in order, a lookup accepted
only on exactly one candidate (otherwise that IP is skipped); then, for
a non-empty FQDN, a lookup accepted only on exactly one candidate; if
no stage matches, the asset is inserted as new with fresh
timestamps. -/
theorem identity_resolution_cascade (hp : Bool) (store : List Asset) (incoming : Asset)
    (now : Nat) :
    resolveIdentity store incoming = identityCascadeSpec store incoming
  ∧ (resolveIdentity store incoming = none →
      (reconcileAsset hp store incoming now).store =
        store ++ [{ incoming with
          firstSeen := now, lastSeen := now, status := AssetStatus.active,
          createdAt := now, updatedAt := now }]) := by
  constructor
  · unfold resolveIdentity identityCascadeSpec
    cases getByExternalID store incoming.source incoming.externalID with
    | some a => rfl
    | none =>
        have hip : (if incoming.ipAddresses.isEmpty then none
                    else findSingleIP store incoming.ipAddresses) =
            incoming.ipAddresses.findSome? (fun ip =>
              match findByIP store ip with | [a] => some a | _ => none) := by
          cases h : incoming.ipAddresses with
          | nil => simp [findSingleIP]
          | cons ip rest => rw [← h, findSingleIP_eq_findSome?]; simp [h]
        rw [hip]
        cases incoming.ipAddresses.findSome? (fun ip =>
            match findByIP store ip with | [a] => some a | _ => none) with
        | some a => rfl
        | none =>
            cases hf : incoming.fqdn with
            | none => simp
            | some f =>
                simp only [Option.getD_some]
                by_cases hfe : f = ""
                · simp [hfe]
                · simp only [if_pos (by simpa using hfe), ne_eq, hfe,
                    not_false_eq_true, if_true]
                  exact singleCandidate_eq (findByFQDN store f)
  · intro h
    simp [reconcileAsset, h]

/-- C1 witness: concrete cascade instance — a store where the incoming
asset has no exact match and its first IP is ambiguous (two
candidates), so the second IP decides the match. -/
theorem identity_resolution_cascade_witness :
    resolveIdentity
        [⟨1, "e1", "vmware", "vm", "a", none, ["10.0.0.5"], "{}", 0, 0, AssetStatus.active, 0, 0⟩,
         ⟨2, "e2", "vmware", "vm", "b", none, ["10.0.0.5", "10.0.0.6"], "{}", 0, 0, AssetStatus.active, 0, 0⟩]
        ⟨3, "10.0.0.5", "nmap", "host", "", none, ["10.0.0.5", "10.0.0.6"], "{}", 0, 0, AssetStatus.active, 0, 0⟩ =
      some ⟨2, "e2", "vmware", "vm", "b", none, ["10.0.0.5", "10.0.0.6"], "{}", 0, 0, AssetStatus.active, 0, 0⟩ ∧
    resolveIdentity []
        ⟨3, "x", "nmap", "host", "", none, [], "{}", 0, 0, AssetStatus.active, 0, 0⟩ = none ∧
    (reconcileAsset true []
        ⟨3, "x", "nmap", "host", "", none, [], "{}", 0, 0, AssetStatus.active, 0, 0⟩ 7).store =
      [] ++ [⟨3, "x", "nmap", "host", "", none, [], "{}", 7, 7, AssetStatus.active, 7, 7⟩] := by
  refine ⟨by decide, by decide, ?_⟩
  exact (identity_resolution_cascade true []
    ⟨3, "x", "nmap", "host", "", none, [], "{}", 0, 0, AssetStatus.active, 0, 0⟩ 7).2 (by decide)

/-- C2 counterexample: reconciling the same single-asset snapshot a
second time emits zero change events, but `updated_at` is NOT
unchanged — the no-diff branch still persists through the store's
`Update`, which stamps `updated_at = now`: after the first run at time
1 the row has `updated_at = 1`; the second run at time 2 leaves it with
`updated_at = 2`. -/
theorem second_run_changes_updated_at :
    (reconcileAsset true
        ((reconcileAsset true []
          ⟨1, "10.0.0.5", "nmap", "host", "", none, ["10.0.0.5"], "{}", 0, 0, AssetStatus.active, 0, 0⟩ 1).store)
        ⟨1, "10.0.0.5", "nmap", "host", "", none, ["10.0.0.5"], "{}", 0, 0, AssetStatus.active, 0, 0⟩ 2).stored = []
  ∧ ((reconcileAsset true []
        ⟨1, "10.0.0.5", "nmap", "host", "", none, ["10.0.0.5"], "{}", 0, 0, AssetStatus.active, 0, 0⟩ 1).store).map
      (fun a => a.updatedAt) = [1]
  ∧ ((reconcileAsset true
        ((reconcileAsset true []
          ⟨1, "10.0.0.5", "nmap", "host", "", none, ["10.0.0.5"], "{}", 0, 0, AssetStatus.active, 0, 0⟩ 1).store)
        ⟨1, "10.0.0.5", "nmap", "host", "", none, ["10.0.0.5"], "{}", 0, 0, AssetStatus.active, 0, 0⟩ 2).store).map
      (fun a => a.updatedAt) = [2] := by
  decide

/-- C2 (amended): a re-sighting whose diff is empty emits zero change
events and stores the matched asset with `last_seen = now`,
`status = active` and `updated_at = now` (every other field unchanged);
`updated_at` is refreshed because the no-diff branch still calls the
store's `Update`, which stamps it. -/
theorem noop_resighting_updates_last_seen_and_updated_at (hp : Bool) (store : List Asset)
    (incoming existing : Asset) (now : Nat)
    (hres : resolveIdentity store incoming = some existing)
    (hdiff : detectChanges existing incoming = []) :
    (reconcileAsset hp store incoming now).stored = []
  ∧ (reconcileAsset hp store incoming now).published = []
  ∧ (reconcileAsset hp store incoming now).store =
      store.map (fun b => if b.id = existing.id then
        { existing with lastSeen := now, status := AssetStatus.active, updatedAt := now }
        else b) := by
  simp [reconcileAsset, hres, hdiff, pgUpdate]

/-- C2 amended witness: the concrete no-op re-sighting of an already
stored asset at time 5. -/
theorem noop_resighting_witness :
    (reconcileAsset true
        [⟨1, "10.0.0.5", "nmap", "host", "", none, ["10.0.0.5"], "{}", 1, 1, AssetStatus.active, 1, 1⟩]
        ⟨1, "10.0.0.5", "nmap", "host", "", none, ["10.0.0.5"], "{}", 0, 0, AssetStatus.active, 0, 0⟩ 5).stored = []
  ∧ (reconcileAsset true
        [⟨1, "10.0.0.5", "nmap", "host", "", none, ["10.0.0.5"], "{}", 1, 1, AssetStatus.active, 1, 1⟩]
        ⟨1, "10.0.0.5", "nmap", "host", "", none, ["10.0.0.5"], "{}", 0, 0, AssetStatus.active, 0, 0⟩ 5).published = []
  ∧ (reconcileAsset true
        [⟨1, "10.0.0.5", "nmap", "host", "", none, ["10.0.0.5"], "{}", 1, 1, AssetStatus.active, 1, 1⟩]
        ⟨1, "10.0.0.5", "nmap", "host", "", none, ["10.0.0.5"], "{}", 0, 0, AssetStatus.active, 0, 0⟩ 5).store =
      [⟨1, "10.0.0.5", "nmap", "host", "", none, ["10.0.0.5"], "{}", 1, 1, AssetStatus.active, 1, 1⟩].map
        (fun b => if b.id = 1 then
          ⟨1, "10.0.0.5", "nmap", "host", "", none, ["10.0.0.5"], "{}", 1, 5, AssetStatus.active, 1, 5⟩ else b) := by
  exact noop_resighting_updates_last_seen_and_updated_at true
    [⟨1, "10.0.0.5", "nmap", "host", "", none, ["10.0.0.5"], "{}", 1, 1, AssetStatus.active, 1, 1⟩]
    ⟨1, "10.0.0.5", "nmap", "host", "", none, ["10.0.0.5"], "{}", 0, 0, AssetStatus.active, 0, 0⟩
    ⟨1, "10.0.0.5", "nmap", "host", "", none, ["10.0.0.5"], "{}", 1, 1, AssetStatus.active, 1, 1⟩
    5 (by decide) (by decide)

/-- C3: every change event appended by a single-asset reconciliation
with action `asset.updated` carries a non-empty diff, every one with
action `asset.created` carries a null diff, and an existing-asset
reconciliation whose computed diff is empty appends no change event at
all. -/
theorem change_event_diff_invariant (hp : Bool) (store : List Asset) (incoming : Asset)
    (now : Nat) :
    (∀ e ∈ (reconcileAsset hp store incoming now).stored,
        (e.action = ChangeAction.updated → ∃ d, e.diff = some d ∧ d ≠ [])
      ∧ (e.action = ChangeAction.created → e.diff = none))
  ∧ (∀ existing, resolveIdentity store incoming = some existing →
      detectChanges existing incoming = [] →
      (reconcileAsset hp store incoming now).stored = []) := by
  constructor
  · intro e he
    unfold reconcileAsset at he
    cases hres : resolveIdentity store incoming with
    | none =>
        rw [hres] at he
        cases hp with
        | false => simp [publishEvent] at he
        | true =>
            simp only [publishEvent, if_true] at he
            simp only [List.mem_singleton] at he
            subst he
            refine ⟨fun h => ?_, fun _ => rfl⟩
            cases h
    | some existing =>
        rw [hres] at he
        by_cases hd : (detectChanges existing incoming).length > 0
        · simp only [hd, if_true] at he
          cases hp with
          | false => simp [publishEvent] at he
          | true =>
              simp only [publishEvent, if_true] at he
              simp only [List.mem_singleton] at he
              subst he
              refine ⟨fun _ => ⟨detectChanges existing incoming, rfl, ?_⟩, fun h => by cases h⟩
              intro hnil
              rw [hnil] at hd
              simp at hd
        · simp only [hd, if_false] at he
          simp at he
  · intro existing hres hdiff
    simp [reconcileAsset, hres, hdiff]

/-- C4: the diff between an existing and an incoming asset consists of
exactly the `{old, new}` entries for `name` (string equality), `fqdn`
(null read as the empty string for the comparison) and `attributes`
(raw JSON blobs compared as strings), each present exactly when the two
values differ; no other field — in particular not the IP address
list — ever appears. -/
theorem detectChanges_exact_fields (existing incoming : Asset) :
    (∀ o n, ("name", o, n) ∈ detectChanges existing incoming ↔
        existing.name ≠ incoming.name ∧ o = existing.name ∧ n = incoming.name)
  ∧ (∀ o n, ("fqdn", o, n) ∈ detectChanges existing incoming ↔
        existing.fqdn.getD "" ≠ incoming.fqdn.getD ""
        ∧ o = existing.fqdn.getD "" ∧ n = incoming.fqdn.getD "")
  ∧ (∀ o n, ("attributes", o, n) ∈ detectChanges existing incoming ↔
        existing.attributes ≠ incoming.attributes
        ∧ o = existing.attributes ∧ n = incoming.attributes)
  ∧ (∀ f o n, (f, o, n) ∈ detectChanges existing incoming →
        f = "name" ∨ f = "fqdn" ∨ f = "attributes") := by
  have hnf : ("name" : String) ≠ "fqdn" := by decide
  have hna : ("name" : String) ≠ "attributes" := by decide
  have hfa : ("fqdn" : String) ≠ "attributes" := by decide
  unfold detectChanges
  refine ⟨?_, ?_, ?_, ?_⟩
  · intro o n
    by_cases h1 : existing.name = incoming.name <;>
      by_cases h2 : existing.fqdn.getD "" = incoming.fqdn.getD "" <;>
        by_cases h3 : existing.attributes = incoming.attributes <;>
          simp_all [Prod.ext_iff, eq_comm]
  · intro o n
    by_cases h1 : existing.name = incoming.name <;>
      by_cases h2 : existing.fqdn.getD "" = incoming.fqdn.getD "" <;>
        by_cases h3 : existing.attributes = incoming.attributes <;>
          simp_all [Prod.ext_iff, hnf.symm, eq_comm]
  · intro o n
    by_cases h1 : existing.name = incoming.name <;>
      by_cases h2 : existing.fqdn.getD "" = incoming.fqdn.getD "" <;>
        by_cases h3 : existing.attributes = incoming.attributes <;>
          simp_all [Prod.ext_iff, hna.symm, hfa.symm, eq_comm]
  · intro f o n hmem
    by_cases h1 : existing.name = incoming.name <;>
      by_cases h2 : existing.fqdn.getD "" = incoming.fqdn.getD "" <;>
        by_cases h3 : existing.attributes = incoming.attributes <;>
          simp_all [Prod.ext_iff] <;> tauto

/-- C3 witness: the update event of a concrete name change carries the
non-empty diff `[("name", "", "web01")]`. -/
theorem change_event_diff_invariant_witness :
    ∃ d, (ChangeEvent.mk 1 ChangeAction.updated "nmap"
        (some [("name", "", "web01")]) 5).diff = some d ∧ d ≠ [] :=
  ((change_event_diff_invariant true
      [⟨1, "10.0.0.5", "nmap", "host", "", none, ["10.0.0.5"], "{}", 1, 1, AssetStatus.active, 1, 1⟩]
      ⟨1, "10.0.0.5", "nmap", "host", "web01", none, ["10.0.0.5"], "{}", 0, 0, AssetStatus.active, 0, 0⟩
      5).1
    ⟨1, ChangeAction.updated, "nmap", some [("name", "", "web01")], 5⟩ (by decide)).1 rfl

/-- C4 witness: for a concrete pair differing only in name, the diff
contains exactly the name entry. -/
theorem detectChanges_exact_fields_witness :
    ("name", "", "web01") ∈ detectChanges
      ⟨1, "10.0.0.5", "nmap", "host", "", none, ["10.0.0.5"], "{}", 1, 1, AssetStatus.active, 1, 1⟩
      ⟨1, "10.0.0.5", "nmap", "host", "web01", none, ["10.0.0.5"], "{}", 0, 0, AssetStatus.active, 0, 0⟩ :=
  ((detectChanges_exact_fields
      ⟨1, "10.0.0.5", "nmap", "host", "", none, ["10.0.0.5"], "{}", 1, 1, AssetStatus.active, 1, 1⟩
      ⟨1, "10.0.0.5", "nmap", "host", "web01", none, ["10.0.0.5"], "{}", 0, 0, AssetStatus.active, 0, 0⟩).1
    "" "web01").mpr (by decide)

/-- C5 counterexample: a dependency-graph request with depth 11 (and a
valid ID and available graph store) is executed at depth 11 — it is not
rejected, contradicting the claim that depth > 10 is rejected rather
than executed; the impact handler behaves identically. -/
theorem depth_eleven_is_executed :
    handleGetDependencyGraph true true 11 = GraphResponse.executed 11
  ∧ handleGetImpactGraph true true 11 = GraphResponse.executed 11
  ∧ traverseGraphDepth 11 = 11 := by
  decide

/-- C5 (amended): for both traversals, a requested depth ≤ 0 is
replaced by the default 3; any positive depth — including depths above
10 — is executed as requested; no maximum depth is enforced anywhere. -/
theorem graph_depth_default_no_maximum (d : Int) :
    handleGetDependencyGraph true true d =
      GraphResponse.executed (if d ≤ 0 then 3 else d)
  ∧ handleGetImpactGraph true true d =
      GraphResponse.executed (if d ≤ 0 then 3 else d)
  ∧ traverseGraphDepth d = (if d ≤ 0 then 3 else d) := by
  unfold handleGetDependencyGraph handleGetImpactGraph traverseGraphDepth
  by_cases hd : d ≤ 0 <;> simp [hd]

/-- C6: the `(LIMIT, OFFSET)` pair reaching SQL for an asset list
query: a requested limit ≤ 0 or > 100 becomes 50, the effective limit
always lies in [1, 100], and a negative offset becomes 0. -/
theorem asset_list_limit_offset_clamped (limit offset : Int) :
    ((limit ≤ 0 → (assetListQueryParams limit offset).1 = 50)
  ∧ (limit > 100 → (assetListQueryParams limit offset).1 = 50))
  ∧ (1 ≤ (assetListQueryParams limit offset).1
  ∧ (assetListQueryParams limit offset).1 ≤ 100)
  ∧ ((offset < 0 → (assetListQueryParams limit offset).2 = 0)
  ∧ 0 ≤ (assetListQueryParams limit offset).2) := by
  unfold assetListQueryParams paginationParams listLimitClamp listOffsetClamp
  refine ⟨⟨?_, ?_⟩, ⟨?_, ?_⟩, ⟨?_, ?_⟩⟩ <;> simp only [] <;> split_ifs <;> omega

/-- C6 witness: limits 0 and 101 both become 50, and offset -7 becomes
0, at concrete inputs. -/
theorem asset_list_clamp_witness :
    (assetListQueryParams 0 (-7)).1 = 50
  ∧ (assetListQueryParams 101 0).1 = 50
  ∧ (assetListQueryParams 0 (-7)).2 = 0 :=
  ⟨(asset_list_limit_offset_clamped 0 (-7)).1.1 (by decide),
   (asset_list_limit_offset_clamped 101 0).1.2 (by decide),
   (asset_list_limit_offset_clamped 0 (-7)).2.2.1 (by decide)⟩

/-- C7 counterexample: a failing collect call is logged and the worker
continues, but the collector status — in particular `last_error` — is
left completely untouched: no scheduler code writes any
`CollectorStatus` field, so after the failure `last_error` is still the
empty string rather than the error message. -/
theorem collect_error_leaves_status_untouched :
    (runCollectorLoopTick true ⟨CollectorStatus.fresh "nmap", [], [], []⟩ false
        (CollectOutcome.failed "connection refused") 1).1.status =
      CollectorStatus.fresh "nmap"
  ∧ (runCollectorLoopTick true ⟨CollectorStatus.fresh "nmap", [], [], []⟩ false
        (CollectOutcome.failed "connection refused") 1).1.status.lastError = ""
  ∧ (runCollectorLoopTick true ⟨CollectorStatus.fresh "nmap", [], [], []⟩ false
        (CollectOutcome.failed "connection refused") 1).1.logs =
      ["collector failed: connection refused"]
  ∧ (runCollectorLoopTick true ⟨CollectorStatus.fresh "nmap", [], [], []⟩ false
        (CollectOutcome.failed "connection refused") 1).2 =
      WorkerAction.continueLoop := by
  decide

/-- C7 (amended): when a scheduled collect call fails, the error is
logged and the worker loop continues to the next tick; the collector's
status record (including `last_error`) is not modified — the scheduler
never writes collector status. -/
theorem collect_error_logged_loop_continues (hp : Bool) (st : WorkerState) (msg : String)
    (now : Nat) :
    (runCollectorLoopTick hp st false (CollectOutcome.failed msg) now).1.status = st.status
  ∧ (runCollectorLoopTick hp st false (CollectOutcome.failed msg) now).1.store = st.store
  ∧ (runCollectorLoopTick hp st false (CollectOutcome.failed msg) now).1.history = st.history
  ∧ (runCollectorLoopTick hp st false (CollectOutcome.failed msg) now).1.logs =
      st.logs ++ ["collector failed: " ++ msg]
  ∧ (runCollectorLoopTick hp st false (CollectOutcome.failed msg) now).2 =
      WorkerAction.continueLoop := by
  simp [runCollectorLoopTick, runCollector]

/-- C8 counterexample: the slice returned by `Registry.List` holds the
live `*CollectorStatus` pointers: after registering one collector,
writing through the pointer returned by `List` changes the status the
registry itself reports for that collector. -/
theorem registry_list_mutation_visible :
    0 ∈ RegistryState.list (RegistryState.register RegistryState.empty "nmap")
  ∧ RegistryState.statusOf (RegistryState.register RegistryState.empty "nmap") "nmap" =
      some (CollectorStatus.fresh "nmap")
  ∧ RegistryState.statusOf
      (RegistryState.writeStatus (RegistryState.register RegistryState.empty "nmap") 0
        ⟨"nmap", 9, 9, "mutated by caller", true, 42⟩) "nmap" =
      some ⟨"nmap", 9, 9, "mutated by caller", true, 42⟩ := by
  decide

/-- C8 (amended): `Registry.List` returns a freshly allocated slice
whose elements are the same status pointers the live map holds; writing
through any returned pointer is visible in the status the registry
reports for that collector (only the slice itself is a copy, not the
statuses). -/
theorem registry_list_shares_status_pointers (r : RegistryState) (name : String) (p : Nat)
    (s : CollectorStatus)
    (hfind : r.entries.find? (fun e => e.1 = name) = some (name, p))
    (hp : p < r.heap.length) :
    p ∈ RegistryState.list r
  ∧ RegistryState.statusOf (RegistryState.writeStatus r p s) name = some s := by
  constructor
  · exact List.mem_map.mpr ⟨(name, p), List.mem_of_find?_eq_some hfind, rfl⟩
  · unfold RegistryState.statusOf RegistryState.writeStatus
    simp only [hfind]
    show (r.heap.set p s).get? p = some s
    rw [List.get?_eq_getElem?]
    exact List.getElem?_set_self hp

/-- C8 amended witness: concrete registry with one collector; the
pointer 0 returned by `List` aliases the live status. -/
theorem registry_share_witness :
    0 ∈ RegistryState.list (RegistryState.register RegistryState.empty "vmware")
  ∧ RegistryState.statusOf
      (RegistryState.writeStatus (RegistryState.register RegistryState.empty "vmware") 0
        ⟨"vmware", 3, 3, "", false, 7⟩) "vmware" =
      some ⟨"vmware", 3, 3, "", false, 7⟩ :=
  registry_list_shares_status_pointers
    (RegistryState.register RegistryState.empty "vmware") "vmware" 0
    ⟨"vmware", 3, 3, "", false, 7⟩ (by decide) (by decide)

/-- C9: a rule matches a change event exactly when the event action is
in the rule's action list and the rule's source list is empty or
contains the event source; hence a rule with an empty action list
matches nothing and an empty source list matches any source; `Evaluate`
dispatches to exactly the channels of the matching rules. -/
theorem notifier_evaluate_dispatch (rule : AlertRule) (rules : List AlertRule)
    (action source : String) :
    (ruleMatches rule action source = true ↔
        action ∈ rule.actions ∧ (rule.sources = [] ∨ source ∈ rule.sources))
  ∧ (rule.actions = [] → ruleMatches rule action source = false)
  ∧ (rule.sources = [] → (ruleMatches rule action source = true ↔ action ∈ rule.actions))
  ∧ (∀ rid ch, (rid, ch) ∈ evaluateRules rules action source ↔
        ∃ r ∈ rules, r.id = rid ∧ ch ∈ r.channels ∧ ruleMatches r action source = true) := by
  have hmatch : ruleMatches rule action source = true ↔
      action ∈ rule.actions ∧ (rule.sources = [] ∨ source ∈ rule.sources) := by
    unfold ruleMatches
    cases hs : rule.sources with
    | nil => simp [List.contains]
    | cons a t => simp [List.contains, List.elem_iff]
  refine ⟨hmatch, ?_, ?_, ?_⟩
  · intro h
    cases hm : ruleMatches rule action source
    · rfl
    · exact absurd ((hmatch.mp hm).1) (by simp [h])
  · intro h
    rw [hmatch, h]
    simp
  · intro rid ch
    constructor
    · intro hmem
      rcases List.mem_flatMap.mp hmem with ⟨r, hr, hin⟩
      by_cases hm : ruleMatches r action source = true
      · rw [if_pos hm] at hin
        rcases List.mem_map.mp hin with ⟨c, hc, heq⟩
        have hfst : r.id = rid := congrArg Prod.fst heq
        have hsnd : c = ch := congrArg Prod.snd heq
        exact ⟨r, hr, hfst, hsnd ▸ hc, hm⟩
      · rw [if_neg hm] at hin
        exact absurd hin (List.not_mem_nil _)
    · rintro ⟨r, hr, hid, hch, hm⟩
      exact List.mem_flatMap.mpr ⟨r, hr, by rw [if_pos hm]; exact List.mem_map.mpr ⟨ch, hch, by rw [hid]⟩⟩

/-- C9 witness: a concrete rule with action filter `asset.created` and
an empty source list matches an `asset.created` event from any source
and dispatches to its webhook channel. -/
theorem notifier_dispatch_witness :
    ruleMatches ⟨"r1", "on-create", ["asset.created"], [], ["webhook"]⟩
      "asset.created" "nmap" = true
  ∧ ("r1", "webhook") ∈ evaluateRules
      [⟨"r1", "on-create", ["asset.created"], [], ["webhook"]⟩] "asset.created" "nmap" :=
  ⟨((notifier_evaluate_dispatch
      ⟨"r1", "on-create", ["asset.created"], [], ["webhook"]⟩ [] "asset.created" "nmap").1).mpr
      (by decide),
   ((notifier_evaluate_dispatch
      ⟨"r1", "on-create", ["asset.created"], [], ["webhook"]⟩
      [⟨"r1", "on-create", ["asset.created"], [], ["webhook"]⟩] "asset.created" "nmap").2.2.2
      "r1" "webhook").mpr
      ⟨⟨"r1", "on-create", ["asset.created"], [], ["webhook"]⟩, by decide, rfl, by decide, by decide⟩⟩

/-- Reconciling one asset with a nil publisher appends nothing to the
change history and publishes nothing (shared helper for the batch
result). -/
theorem reconcileAsset_nil_publisher (store : List Asset) (incoming : Asset) (now : Nat) :
    (reconcileAsset false store incoming now).stored = []
  ∧ (reconcileAsset false store incoming now).published = [] := by
  unfold reconcileAsset
  cases resolveIdentity store incoming with
  | none => simp [publishEvent]
  | some existing =>
      by_cases hd : (detectChanges existing incoming).length > 0 <;>
        simp [hd, publishEvent]

/-- C10: with a nil event publisher — as the shipped collector worker
passes (`reconciler.New(pgStore, neo, nil, logger)`) — a whole batch
reconciliation appends no change event to the canonical history and
publishes nothing, for created and updated assets alike. -/
theorem nil_publisher_no_change_history (store : List Asset) (assets : List Asset)
    (now : Nat) :
    (reconcileBatch collectorWorkerHasPublisher store assets now).stored = []
  ∧ (reconcileBatch collectorWorkerHasPublisher store assets now).published = [] := by
  unfold collectorWorkerHasPublisher
  induction assets generalizing store with
  | nil => exact ⟨rfl, rfl⟩
  | cons a rest ih =>
      have ha := reconcileAsset_nil_publisher store a now
      have hr := ih (reconcileAsset false store a now).store
      simp [reconcileBatch, ha.1, ha.2, hr.1, hr.2]

/-- C10 witness: a concrete two-asset batch — one brand-new asset and
one update of a stored asset — run with the collector worker's nil
publisher records no history and publishes nothing. -/
theorem nil_publisher_witness :
    (reconcileBatch collectorWorkerHasPublisher
        [⟨1, "10.0.0.5", "nmap", "host", "", none, ["10.0.0.5"], "{}", 1, 1, AssetStatus.active, 1, 1⟩]
        [⟨2, "vm-7", "vmware", "vm", "db01", none, [], "{}", 0, 0, AssetStatus.active, 0, 0⟩,
         ⟨1, "10.0.0.5", "nmap", "host", "web01", none, ["10.0.0.5"], "{}", 0, 0, AssetStatus.active, 0, 0⟩]
        9).stored = []
  ∧ (reconcileBatch collectorWorkerHasPublisher
        [⟨1, "10.0.0.5", "nmap", "host", "", none, ["10.0.0.5"], "{}", 1, 1, AssetStatus.active, 1, 1⟩]
        [⟨2, "vm-7", "vmware", "vm", "db01", none, [], "{}", 0, 0, AssetStatus.active, 0, 0⟩,
         ⟨1, "10.0.0.5", "nmap", "host", "web01", none, ["10.0.0.5"], "{}", 0, 0, AssetStatus.active, 0, 0⟩]
        9).published = [] :=
  nil_publisher_no_change_history
    [⟨1, "10.0.0.5", "nmap", "host", "", none, ["10.0.0.5"], "{}", 1, 1, AssetStatus.active, 1, 1⟩]
    [⟨2, "vm-7", "vmware", "vm", "db01", none, [], "{}", 0, 0, AssetStatus.active, 0, 0⟩,
     ⟨1, "10.0.0.5", "nmap", "host", "web01", none, ["10.0.0.5"], "{}", 0, 0, AssetStatus.active, 0, 0⟩]
    9

